import Mathlib

/-!
Verification of the PHENICX-Anechoic dataset loader
(`mirdata/datasets/phenicx_anechoic.py`).

The Python module is embedded shallowly:

* strings are `String` (backed by `List Char`), compared by code point as
  Python compares them;
* floating-point sample values, note times and sample rates are modelled
  as `ℚ` (the claims under study are about aggregation structure, not
  rounding);
* the on-disk filesystem is an explicit map `String → Option _` from full
  paths to file contents; `none` models a missing file;
* fallible Python code returns `Except PyErr _`, with one `PyErr`
  constructor per kind of Python exception the module can raise.

Definitions keep the Python names where Lean allows it, and each carries
a comment pointing at the source lines it translates.
-/

/-- The kinds of Python exceptions the module can raise. -/
inductive PyErr where
  /-- `raise ValueError(...)` with the given message. -/
  | valueError (msg : String)
  /-- `TypeError` from calling a function with the wrong number of arguments. -/
  | typeError
  /-- A failed `assert` statement. -/
  | assertionError
  /-- `raise IOError("path {...} does not exist")` for the given path. -/
  | ioError (path : String)
  /-- `IndexError` from indexing with too many indices / out of range. -/
  | indexError
  /-- `NameError`: the given name is not defined at the point of use. -/
  | nameError (which : String)
  /-- Audio buffers of unequal sample count combined under a
  length-enforcing mixing call. -/
  | lengthMismatch
  deriving DecidableEq, Repr

/-! ### Character-list utilities

Python string operations (`in`, `replace`, `strip`, `lower`, comparison)
are modelled directly on the `List Char` backing Lean strings, so that
all of them evaluate inside the kernel. -/

/-- ASCII case folding, as `str.lower` acts on the ASCII identifiers
(instrument names, track ids, file paths) this dataset uses. -/
def lowerChar (c : Char) : Char :=
  if 65 ≤ c.toNat ∧ c.toNat ≤ 90 then Char.ofNat (c.toNat + 32) else c

/-- Code-point-wise lexicographic `≤` on character lists: Python's
string comparison, used by `sorted`. -/
def charListLe : List Char → List Char → Bool
  | [], _ => true
  | _ :: _, [] => false
  | a :: as, b :: bs =>
    if a.toNat < b.toNat then true
    else if b.toNat < a.toNat then false
    else charListLe as bs

/-- Python string `≤` (lexicographic by code point). -/
def pyStrLe (a b : String) : Bool := charListLe a.data b.data

/-- Does `p` occur at the start of `l`?  (Bool-valued, kernel-evaluable.) -/
def startsWithChars : List Char → List Char → Bool
  | [], _ => true
  | _ :: _, [] => false
  | a :: as, b :: bs => if a = b then startsWithChars as bs else false

/-- Does `p` occur somewhere inside `l`?  This is Python's `p in l` on
strings. -/
def containsChars : List Char → List Char → Bool
  | p, [] => startsWithChars p []
  | p, c :: rest => startsWithChars p (c :: rest) || containsChars p rest

/-- Python `sub in s` for strings. -/
def hasSub (sub s : String) : Bool := containsChars sub.data s.data

/-- Case-insensitive substring test: `re.compile(pat, re.IGNORECASE).search(s)`
for a pattern `pat` that is a plain literal (the instrument names used by
this dataset contain no regex metacharacters). -/
def containsCI (pat s : String) : Bool :=
  containsChars (pat.data.map lowerChar) (s.data.map lowerChar)

/-- `re.compile('|'.join(pats), re.IGNORECASE).search(s)` for literal
alternatives `pats`: the empty join produces the empty pattern, which
matches every string; otherwise the alternation matches iff some
alternative occurs in `s` (case-insensitively). -/
def regexAltSearch (pats : List String) (s : String) : Bool :=
  pats.isEmpty || pats.any (fun p => containsCI p s)

/-- Python `s.strip('\n')`: remove leading and trailing newline characters. -/
def stripNl (s : String) : String :=
  String.mk (((s.data.dropWhile (fun c => c = '\n')).reverse.dropWhile
    (fun c => c = '\n')).reverse)

/-- The characters of the literal `'score-'`. -/
def scoreChars : List Char := ['s', 'c', 'o', 'r', 'e', '-']

/-- Fuelled worker for `removeScore`; the fuel is the length of the list,
which bounds the number of steps, so the recursion is structural and
kernel-evaluable. -/
def removeScoreAux : Nat → List Char → List Char
  | 0, l => l
  | _ + 1, [] => []
  | fuel + 1, c :: rest =>
    if startsWithChars scoreChars (c :: rest) then
      removeScoreAux fuel ((c :: rest).drop 6)
    else
      c :: removeScoreAux fuel rest

/-- Python `s.replace('score-', '')`: remove every (left-to-right,
non-overlapping) occurrence of `score-`. -/
def removeScore (l : List Char) : List Char := removeScoreAux l.length l

/-! ### A sorting function with the contract of Python's `sorted`

`sortLe le l` returns a permutation of `l` that is pairwise `le`-ordered
(given that `le` is total and transitive).  The claims under study never
depend on the order of `le`-equal elements, so insertion sort is an
adequate model of `sorted` / `np.argsort`. -/

/-- Insert `x` into `l` before the first element that is not `le`-below it. -/
def insertLe (le : α → α → Bool) (x : α) : List α → List α
  | [] => [x]
  | y :: ys => if le x y then x :: y :: ys else y :: insertLe le x ys

/-- Sort by repeated insertion. -/
def sortLe (le : α → α → Bool) : List α → List α
  | [] => []
  | x :: xs => insertLe le x (sortLe le xs)

theorem insertLe_perm (le : α → α → Bool) (x : α) (l : List α) :
    (insertLe le x l).Perm (x :: l) := by
  induction l with
  | nil => exact List.Perm.refl _
  | cons y ys ih =>
    simp only [insertLe]
    by_cases h : le x y = true
    · simp [h]
    · simp only [h, if_false]
      exact (ih.cons y).trans (List.Perm.swap x y ys)

theorem sortLe_perm (le : α → α → Bool) (l : List α) :
    (sortLe le l).Perm l := by
  induction l with
  | nil => exact List.Perm.refl _
  | cons x xs ih =>
    simpa [sortLe] using (insertLe_perm le x (sortLe le xs)).trans (ih.cons x)

theorem insertLe_pairwise (le : α → α → Bool)
    (htr : ∀ a b c, le a b = true → le b c = true → le a c = true)
    (hto : ∀ a b, le a b = true ∨ le b a = true)
    (x : α) (l : List α) (h : l.Pairwise (fun a b => le a b = true)) :
    (insertLe le x l).Pairwise (fun a b => le a b = true) := by
  induction l with
  | nil => simp [insertLe]
  | cons y ys ih =>
    rcases List.pairwise_cons.mp h with ⟨hy, hys⟩
    simp only [insertLe]
    by_cases hxy : le x y = true
    · simp only [hxy, if_true]
      refine List.pairwise_cons.mpr ⟨?_, h⟩
      intro z hz
      rcases List.mem_cons.mp hz with rfl | hz
      · exact hxy
      · exact htr x y z hxy (hy z hz)
    · simp only [hxy, if_false]
      refine List.pairwise_cons.mpr ⟨?_, ih hys⟩
      intro z hz
      rcases List.mem_cons.mp ((insertLe_perm le x ys).mem_iff.mp hz) with heq | hz
      · rw [heq]
        rcases hto x y with hc | hc
        · exact absurd hc hxy
        · exact hc
      · exact hy z hz

theorem sortLe_pairwise (le : α → α → Bool)
    (htr : ∀ a b c, le a b = true → le b c = true → le a c = true)
    (hto : ∀ a b, le a b = true ∨ le b a = true) (l : List α) :
    (sortLe le l).Pairwise (fun a b => le a b = true) := by
  induction l with
  | nil => simp [sortLe]
  | cons x xs ih => exact insertLe_pairwise le htr hto x _ ih

theorem charListLe_total : ∀ l1 l2 : List Char,
    charListLe l1 l2 = true ∨ charListLe l2 l1 = true := by
  intro l1
  induction l1 with
  | nil => intro l2; left; rfl
  | cons a as ih =>
    intro l2
    cases l2 with
    | nil => right; rfl
    | cons b bs =>
      simp only [charListLe]
      rcases Nat.lt_trichotomy a.toNat b.toNat with h | h | h
      · left; simp [h]
      · have h1 : ¬ a.toNat < b.toNat := by omega
        have h2 : ¬ b.toNat < a.toNat := by omega
        simpa [h1, h2] using ih bs
      · right; simp [h]

theorem charListLe_trans : ∀ l1 l2 l3 : List Char,
    charListLe l1 l2 = true → charListLe l2 l3 = true →
    charListLe l1 l3 = true := by
  intro l1
  induction l1 with
  | nil => intro l2 l3 _ _; rfl
  | cons a as ih =>
    intro l2 l3 h12 h23
    cases l2 with
    | nil => simp [charListLe] at h12
    | cons b bs =>
      cases l3 with
      | nil => simp [charListLe] at h23
      | cons c cs =>
        simp only [charListLe] at h12 h23 ⊢
        by_cases hab : a.toNat < b.toNat
        · by_cases hbc : b.toNat < c.toNat
          · rw [if_pos (show a.toNat < c.toNat by omega)]
          · by_cases hcb : c.toNat < b.toNat
            · rw [if_neg hbc, if_pos hcb] at h23
              exact absurd h23 (by simp)
            · rw [if_pos (show a.toNat < c.toNat by omega)]
        · by_cases hba : b.toNat < a.toNat
          · rw [if_neg hab, if_pos hba] at h12
            exact absurd h12 (by simp)
          · rw [if_neg hab, if_neg hba] at h12
            by_cases hbc : b.toNat < c.toNat
            · rw [if_pos (show a.toNat < c.toNat by omega)]
            · by_cases hcb : c.toNat < b.toNat
              · rw [if_neg hbc, if_pos hcb] at h23
                exact absurd h23 (by simp)
              · rw [if_neg hbc, if_neg hcb] at h23
                rw [if_neg (show ¬ a.toNat < c.toNat by omega),
                  if_neg (show ¬ c.toNat < a.toNat by omega)]
                exact ih bs cs h12 h23

theorem pyStrLe_trans (a b c : String) (h1 : pyStrLe a b = true)
    (h2 : pyStrLe b c = true) : pyStrLe a c = true :=
  charListLe_trans a.data b.data c.data h1 h2

theorem pyStrLe_total (a b : String) :
    pyStrLe a b = true ∨ pyStrLe b a = true :=
  charListLe_total a.data b.data

/-! ### The index and the section map -/

/-- The static instrument-to-orchestral-section lookup
(`DATASET_SECTIONS`, source lines 90-101), in its source order. -/
def DATASET_SECTIONS : List (String × String) :=
  [("doublebass", "strings"), ("cello", "strings"), ("clarinet", "woodwinds"),
   ("viola", "strings"), ("violin", "strings"), ("oboe", "woodwinds"),
   ("flute", "woodwinds"), ("trumpet", "brass"), ("bassoon", "woodwinds"),
   ("horn", "brass")]

/-- One piece's entry in the JSON index `DATA.index['multitracks'][mtrack_id]`:
the keys of its `tracks` sub-dictionary (the sub-track ids), and the
remaining `key ↦ [path, checksum]` items, kept as `key ↦ path` since the
module only ever reads `v[0]`.  The literal key `'tracks'` itself never
contains the substring `'score-'`, so listing it separately from
`sources` does not change which keys the comprehensions below select. -/
structure MTIndexEntry where
  tracks : List String
  sources : List (String × String)
  deriving DecidableEq, Repr

/-- An index: the piece-id-keyed dictionary `DATA.index['multitracks']`. -/
def MTIndex : Type := List (String × MTIndexEntry)

/-- The constructed attributes of a `MultiTrack` object
(source lines 211-244). -/
structure MultiTrack where
  mtrack_id : String
  dataHome : String
  entry : MTIndexEntry
  mtrack_ids : List String
  instruments : List String
  sections : List String
  deriving DecidableEq, Repr

/-- Source lines 227-233: `sorted([source.replace('score-', '') for source
in DATA.index['multitracks'][mtrack_id].keys() if 'score-' in source])`. -/
def instrumentsOf (e : MTIndexEntry) : List String :=
  sortLe pyStrLe
    (((e.sources.map Prod.fst).filter (fun k => hasSub "score-" k)).map
      (fun k => String.mk (removeScore k.data)))

/-- Source lines 236-244: `sorted(list(set(section for instrument, section
in DATASET_SECTIONS.items() if instrument in self.instruments)))`.
`List.dedup` keeps one copy per distinct element, as `set` does; the
subsequent sort makes the result independent of `set` iteration order. -/
def sectionsOf (insts : List String) : List String :=
  sortLe pyStrLe
    (((DATASET_SECTIONS.filter (fun p => decide (p.1 ∈ insts))).map
      Prod.snd).dedup)

/-- `Track.__init__` (source lines 123-137) binds exactly five required
positional parameters: `track_id`, `data_home`, `dataset_name`, `index`,
`metadata` (none has a default). -/
def trackInitParamCount : Nat := 5

/-- A Python call of `Track(...)` with the given positional argument list:
supplying a number of arguments different from the number of required
parameters raises `TypeError` before the body runs. -/
def callTrackInit (args : List String) : Except PyErr Unit :=
  if args.length = trackInitParamCount then Except.ok () else Except.error PyErr.typeError

/-- Source line 220: the dict comprehension
`{k: Track(self.mtrack_id, k, self._data_home) for k, v in sorted(...)}`
evaluates `Track(self.mtrack_id, k, self._data_home)` — a three-argument
call — for each sub-track key `k` in sorted order. -/
def buildTracks (mid dataHome : String) : List String → Except PyErr Unit
  | [] => Except.ok ()
  | k :: rest =>
    match callTrackInit [mid, k, dataHome] with
    | Except.error e => Except.error e
    | Except.ok _ => buildTracks mid dataHome rest

/-- `MultiTrack.__init__` (source lines 211-244): raise `ValueError` when
the piece id is not a key of the index; otherwise resolve the sorted
sub-track id list, build one `Track` per sub-track (line 220), and derive
`instruments` and `sections`. -/
def constructMultiTrack (index : MTIndex) (dataHome mid : String) :
    Except PyErr MultiTrack :=
  match List.lookup mid index with
  | none => Except.error (PyErr.valueError (mid ++ " is not a valid track ID in Example"))
  | some e =>
    match buildTracks mid dataHome (sortLe pyStrLe e.tracks) with
    | Except.error err => Except.error err
    | Except.ok _ =>
      Except.ok
        ⟨mid, dataHome, e, sortLe pyStrLe e.tracks, instrumentsOf e,
          sectionsOf (instrumentsOf e)⟩

/-- `MultiTrack.get_trackids` (source lines 260-274): assert that every
requested instrument is one of the piece's instruments, then keep the
sub-track ids matched by the case-insensitive alternation of the
requested names. -/
def get_trackids (mt : MultiTrack) (insts : List String) :
    Except PyErr (List String) :=
  if insts.all (fun i => decide (i ∈ mt.instruments)) then
    Except.ok (mt.mtrack_ids.filter (fun tid => regexAltSearch insts tid))
  else Except.error PyErr.assertionError

/-! ### Audio mixing -/

/-- Decode the audio of each listed sub-track (`none` = the file referred
to by that track is missing, surfacing a file-not-found error at access
time). -/
def decodeAll (audioOf : String → Option (List ℚ)) :
    List String → Except PyErr (List (List ℚ))
  | [] => Except.ok []
  | tid :: rest =>
    match audioOf tid with
    | none => Except.error (PyErr.ioError tid)
    | some b =>
      match decodeAll audioOf rest with
      | Except.error e => Except.error e
      | Except.ok bs => Except.ok (b :: bs)

/-- The longest buffer length among `bufs`. -/
def maxLen (bufs : List (List ℚ)) : Nat :=
  bufs.foldr (fun b acc => max b.length acc) 0

/-- Pointwise sum of the buffers over sample positions `0, …, n-1`,
reading `0` beyond a buffer's end. -/
def mixAt (bufs : List (List ℚ)) (n : Nat) : List ℚ :=
  (List.range n).map (fun i => (bufs.map (fun b => b.getD i 0)).sum)

/-- Modelled from the spec: `core.MultiTrack.get_target` is code of this
repository that is not under `src/` (only its caller
`get_audio_mix_instruments` is).  Per the spec's mixing contract: each
matched track contributes its decoded signal, scaled by the parallel
weight when weights are given; with `enforce_length` true all matched
tracks must decode to identical sample counts, else the call fails with a
length-mismatch error, and with it false shorter buffers count as zero
beyond their end (the sum uses the longest buffer's length); with
`average` true the sum is divided by the count of matched tracks. -/
def get_target (audioOf : String → Option (List ℚ)) (tids : List String)
    (weights : Option (List ℚ)) (average enforceLength : Bool) :
    Except PyErr (List ℚ) :=
  match decodeAll audioOf tids with
  | Except.error e => Except.error e
  | Except.ok bufs =>
    let wbufs :=
      match weights with
      | none => bufs
      | some ws => (bufs.zip ws).map (fun bw => bw.1.map (fun x => bw.2 * x))
    if enforceLength && !(wbufs.all (fun b => decide (b.length = maxLen wbufs))) then
      Except.error PyErr.lengthMismatch
    else
      let mix := mixAt wbufs (maxLen wbufs)
      Except.ok (if average then mix.map (fun x => x / (tids.length : ℚ)) else mix)

/-- `MultiTrack.get_audio_mix_instruments` (source lines 277-286):
`self.get_target(self.get_trackids(instruments), weights=weights,
average=average, enforce_length=enforce_length)`. -/
def get_audio_mix_instruments (mt : MultiTrack)
    (audioOf : String → Option (List ℚ)) (insts : List String)
    (weights : Option (List ℚ)) (average enforceLength : Bool) :
    Except PyErr (List ℚ) :=
  match get_trackids mt insts with
  | Except.error e => Except.error e
  | Except.ok tids => get_target audioOf tids weights average enforceLength

/-- `MultiTrack.audio_mix` (source lines 248-251):
`self.get_audio_mix_instruments(self.instruments, weights=None,
average=True, enforce_length=False)`. -/
def audio_mix (mt : MultiTrack) (audioOf : String → Option (List ℚ)) :
    Except PyErr (List ℚ) :=
  get_audio_mix_instruments mt audioOf mt.instruments none true false

/-! ### Score loading -/

/-- One comma-separated line of a score file: its first field parsed as a
float (start time), its second field parsed as a float (end time), and
its third field as the raw string `line.split(',')[2]` (which still
carries the line's trailing newline). -/
abbrev Row : Type := ℚ × ℚ × String

/-- The Event a row contributes: the two times together with the third
field stripped of newlines (source line 350). -/
def parseRow (r : Row) : Row := (r.1, r.2.1, stripNl r.2.2)

/-- `np.loadtxt(full_path, delimiter=",", usecols=[0, 1], dtype=np.float)`
followed by the column slices `times[:, 0]` and `times[:, 1]` (source
lines 343-345): with two or more rows `loadtxt` yields the n×2 matrix of
the first two fields, but with zero or one rows it yields a
one-dimensional array, and the two-index slice `times[:, 0]` raises
`IndexError` (too many indices). -/
def loadtxtCols01 (rows : List Row) : Except PyErr (List (ℚ × ℚ)) :=
  match rows with
  | [] => Except.error PyErr.indexError
  | [_] => Except.error PyErr.indexError
  | _ => Except.ok (rows.map (fun r => (r.1, r.2.1)))

/-- `os.path.join(self._data_home, path)` for the relative paths stored
in the index. -/
def joinPath (a b : String) : String := a ++ "/" ++ b

/-- The body of the per-path loop of `get_score_mix_instruments` (source
lines 337-351): raise `IOError` when the resolved path does not exist,
load the two time columns (possibly raising `IndexError`, see
`loadtxtCols01`), read the note labels, and pair everything up. -/
def readScoreFile (fs : String → Option (List Row)) (dataHome path : String) :
    Except PyErr (List Row) :=
  match fs (joinPath dataHome path) with
  | none => Except.error (PyErr.ioError (joinPath dataHome path))
  | some rows =>
    match loadtxtCols01 rows with
    | Except.error e => Except.error e
    | Except.ok _ => Except.ok (rows.map parseRow)

/-- Run the per-path loop over all matched score paths, stopping at the
first failing path, as the Python `for` loop does. -/
def readAllScores (fs : String → Option (List Row)) (dataHome : String) :
    List String → Except PyErr (List (List Row))
  | [] => Except.ok []
  | p :: rest =>
    match readScoreFile fs dataHome p with
    | Except.error e => Except.error e
    | Except.ok rows =>
      match readAllScores fs dataHome rest with
      | Except.error e => Except.error e
      | Except.ok rss => Except.ok (rows :: rss)

/-- Source line 332: `[v[0] for k, v in DATA.index['multitracks']
[self.mtrack_id].items() if 'score-' in k and re.compile('|'.join(
instruments), re.IGNORECASE).search(v[0])]` — keys containing `score-`
whose stored path matches the requested-instrument alternation. -/
def scorePathsFor (e : MTIndexEntry) (insts : List String) : List String :=
  (e.sources.filter
    (fun kv => hasSub "score-" kv.1 && regexAltSearch insts kv.2)).map Prod.snd

/-- `MultiTrack.get_score_mix_instruments` (source lines 318-364): assert
instrument membership, resolve the matched score paths, read every file
(raising `IOError` for a missing one), concatenate all rows
(`np.concatenate` raises `ValueError` when no file matched), and sort
the merged rows ascending by start time (`np.argsort` on the start
column applied to all three columns). -/
def get_score_mix_instruments (mt : MultiTrack)
    (fs : String → Option (List Row)) (insts : List String) :
    Except PyErr (List Row) :=
  if insts.all (fun i => decide (i ∈ mt.instruments)) then
    match readAllScores fs mt.dataHome (scorePathsFor mt.entry insts) with
    | Except.error e => Except.error e
    | Except.ok fileRows =>
      match fileRows with
      | [] => Except.error (PyErr.valueError "need at least one array to concatenate")
      | _ => Except.ok (sortLe (fun a b : Row => decide (a.1 ≤ b.1)) fileRows.flatten)
  else Except.error PyErr.assertionError

/-! ### Track audio -/

/-- `load_audio` (source lines 389-403).  The function's parameter is
`fhandle`, but its body tests `os.path.exists(audio_path)` and calls
`librosa.load(audio_path, ...)`: `audio_path` is bound neither as a
parameter nor as a module global, so evaluating the body raises
`NameError` before any existence check, whatever the argument and
whatever is on disk.  (The module aggravates this: the decorator
`@io.coerce_to_bytes_io` on line 389 references an `io` name that is
never imported.) -/
def load_audio (fhandle : String) (fs : String → Option (List ℚ × ℚ)) :
    Except PyErr (List ℚ × ℚ) :=
  Except.error (PyErr.nameError "audio_path")

/-- The attributes of a `Track` object this development needs: the
resolved per-voice audio paths (source lines 142-144). -/
structure Track where
  audio_paths : List String
  deriving DecidableEq, Repr

/-- `np.ndarray.__iadd__` on two decoded buffers: elementwise sum when
the shapes agree, a broadcast `ValueError` otherwise. -/
def npAdd (a b : List ℚ) : Except PyErr (List ℚ) :=
  if a.length = b.length then Except.ok (List.zipWith (fun x y => x + y) a b)
  else Except.error (PyErr.valueError "operands could not be broadcast together")

/-- The `for i in range(1, self.n_voices)` accumulation of
`Track.audio` (source lines 166-168). -/
def sumVoices (fs : String → Option (List ℚ × ℚ)) (mix : List ℚ) :
    List String → Except PyErr (List ℚ)
  | [] => Except.ok mix
  | p :: rest =>
    match load_audio p fs with
    | Except.error e => Except.error e
    | Except.ok av =>
      match npAdd mix av.1 with
      | Except.error e => Except.error e
      | Except.ok m => sumVoices fs m rest

/-- `Track.audio` (source lines 156-169): decode the first voice, add
each remaining voice's buffer in place, and return the sum with the
first voice's sample rate.  Indexing `self.audio_paths[0]` on a track
with no voices raises `IndexError`. -/
def trackAudio (t : Track) (fs : String → Option (List ℚ × ℚ)) :
    Except PyErr (List ℚ × ℚ) :=
  match t.audio_paths with
  | [] => Except.error PyErr.indexError
  | p :: rest =>
    match load_audio p fs with
    | Except.error e => Except.error e
    | Except.ok asr =>
      match sumVoices fs asr.1 rest with
      | Except.error e => Except.error e
      | Except.ok mix => Except.ok (mix, asr.2)

/-! ### Support lemmas -/

theorem startsWithChars_eq_append : ∀ p l : List Char,
    startsWithChars p l = true → l = p ++ l.drop p.length := by
  intro p
  induction p with
  | nil => intro l _; simp
  | cons a as ih =>
    intro l h
    cases l with
    | nil => simp [startsWithChars] at h
    | cons b bs =>
      simp only [startsWithChars] at h
      by_cases hab : a = b
      · subst hab
        rw [if_pos rfl] at h
        simp only [List.length_cons, List.drop_succ_cons, List.cons_append,
          List.cons.injEq, true_and]
        exact ih bs h
      · rw [if_neg hab] at h
        exact absurd h (by simp)

theorem containsChars_of_starts (p l : List Char)
    (h : startsWithChars p l = true) : containsChars p l = true := by
  cases l with
  | nil => simpa [containsChars] using h
  | cons c rest => simp [containsChars, h]

theorem containsChars_cons_of (p : List Char) (c : Char) (rest : List Char)
    (h : containsChars p rest = true) : containsChars p (c :: rest) = true := by
  simp [containsChars, h]

theorem removeScoreAux_id : ∀ (fuel : Nat) (l : List Char),
    containsChars scoreChars l = false → removeScoreAux fuel l = l := by
  intro fuel
  induction fuel with
  | zero => intro l _; rfl
  | succ n ih =>
    intro l h
    cases l with
    | nil => rfl
    | cons c rest =>
      have h1 : ¬ startsWithChars scoreChars (c :: rest) = true := by
        intro hs
        exact absurd (containsChars_of_starts _ _ hs) (by simp [h])
      have h2 : containsChars scoreChars rest = false := by
        cases hc : containsChars scoreChars rest
        · rfl
        · exact absurd (containsChars_cons_of _ c _ hc) (by simp [h])
      simp only [removeScoreAux, if_neg h1]
      rw [ih rest h2]

theorem removeScoreAux_append (fuel : Nat) (tail : List Char)
    (h : containsChars scoreChars tail = false) :
    removeScoreAux (fuel + 1) (scoreChars ++ tail) = tail := by
  have hs : startsWithChars scoreChars
      ('s' :: 'c' :: 'o' :: 'r' :: 'e' :: '-' :: tail) = true := rfl
  show removeScoreAux (fuel + 1)
    ('s' :: 'c' :: 'o' :: 'r' :: 'e' :: '-' :: tail) = tail
  simp only [removeScoreAux]
  rw [if_pos hs]
  have hdrop : List.drop 6 ('s' :: 'c' :: 'o' :: 'r' :: 'e' :: '-' :: tail) = tail := rfl
  rw [hdrop]
  exact removeScoreAux_id fuel tail h

theorem removeScore_append (tail : List Char)
    (h : containsChars scoreChars tail = false) :
    removeScore (scoreChars ++ tail) = tail := by
  have hl : (scoreChars ++ tail).length = tail.length + 6 := by
    simp only [scoreChars, List.length_append, List.length_cons, List.length_nil]
    omega
  show removeScoreAux (scoreChars ++ tail).length (scoreChars ++ tail) = tail
  rw [hl]
  exact removeScoreAux_append (tail.length + 5) tail h

theorem maxLen_cons (b : List ℚ) (rest : List (List ℚ)) :
    maxLen (b :: rest) = max b.length (maxLen rest) := rfl

theorem maxLen_of_forall : ∀ (bufs : List (List ℚ)) (c : Nat), bufs ≠ [] →
    (∀ b ∈ bufs, b.length = c) → maxLen bufs = c := by
  intro bufs
  induction bufs with
  | nil => intro c h _; exact absurd rfl h
  | cons b rest ih =>
    intro c _ h
    have hb : b.length = c := h b (by simp)
    cases rest with
    | nil => simp [maxLen_cons, maxLen, hb]
    | cons b2 r2 =>
      have h2 : maxLen (b2 :: r2) = c :=
        ih c (by simp) (fun x hx => h x (by simp [hx]))
      rw [maxLen_cons, h2, hb, Nat.max_self]

theorem decodeAll_ok (audioOf : String → Option (List ℚ))
    (bufOf : String → List ℚ) :
    ∀ tids : List String, (∀ tid ∈ tids, audioOf tid = some (bufOf tid)) →
    decodeAll audioOf tids = Except.ok (tids.map bufOf) := by
  intro tids
  induction tids with
  | nil => intro _; rfl
  | cons t rest ih =>
    intro h
    have ht : audioOf t = some (bufOf t) := h t (by simp)
    have hr := ih (fun tid htid => h tid (by simp [htid]))
    simp [decodeAll, ht, hr]

theorem loadtxtCols01_ok (rows : List Row) (h : 2 ≤ rows.length) :
    loadtxtCols01 rows = Except.ok (rows.map (fun r => (r.1, r.2.1))) := by
  cases rows with
  | nil => simp at h
  | cons a t =>
    cases t with
    | nil => simp at h
    | cons b r => rfl

theorem readAllScores_ok (fs : String → Option (List Row)) (dataHome : String)
    (contents : String → List Row) :
    ∀ ps : List String,
    (∀ p ∈ ps, fs (joinPath dataHome p) = some (contents p) ∧
      2 ≤ (contents p).length) →
    readAllScores fs dataHome ps =
      Except.ok (ps.map (fun p => (contents p).map parseRow)) := by
  intro ps
  induction ps with
  | nil => intro _; rfl
  | cons p rest ih =>
    intro h
    rcases h p (by simp) with ⟨hf, hlen⟩
    have hfile : readScoreFile fs dataHome p =
        Except.ok ((contents p).map parseRow) := by
      simp [readScoreFile, hf, loadtxtCols01_ok _ hlen]
    have hr := ih (fun q hq => h q (by simp [hq]))
    simp [readAllScores, hfile, hr]

theorem get_trackids_all (mt : MultiTrack) (insts : List String)
    (h : ∀ i ∈ insts, i ∈ mt.instruments) :
    get_trackids mt insts =
      Except.ok (mt.mtrack_ids.filter (fun tid => regexAltSearch insts tid)) := by
  have hall : insts.all (fun i => decide (i ∈ mt.instruments)) = true :=
    List.all_eq_true.mpr fun i hi => decide_eq_true (h i hi)
  simp [get_trackids, hall]

theorem buildTracks_cases (mid dataHome : String) (ks : List String) :
    buildTracks mid dataHome ks = Except.ok () ∨
    buildTracks mid dataHome ks = Except.error PyErr.typeError := by
  cases ks with
  | nil => left; rfl
  | cons k rest => right; rfl

/-! ### Concrete fixtures used by evaluation theorems and witnesses -/

/-- A small concrete index with one piece, one sub-track and one score key. -/
def idx0 : MTIndex :=
  [("mozart", ⟨["mozart-violin"], [("score-violin", "annotations/violin.txt")]⟩)]

/-- A concretely populated `MultiTrack` for a piece with one violin
sub-track and one violin score file. -/
def mtFix : MultiTrack :=
  ⟨"mozart", "d", ⟨["mozart-violin"], [("score-violin", "annotations/violin.txt")]⟩,
    ["mozart-violin"], ["violin"], ["strings"]⟩

/-! ### Claim C10 -/

/-- C10: calling `get_trackids` with the empty instrument list passes the
membership assertion vacuously, and, because the empty regex alternation
matches every id string, returns the complete list of the piece's
sub-track ids — not an empty list and not an error. -/
theorem get_trackids_empty_returns_all (mt : MultiTrack) :
    get_trackids mt [] = Except.ok mt.mtrack_ids := by
  simp [get_trackids, regexAltSearch]

/-! ### Claim C3 -/

/-- C3: whenever some requested instrument is not among the piece's
instruments, both `get_trackids` and `get_score_mix_instruments` fail
with the assertion error — neither returns a silent empty result. -/
theorem missing_instrument_assertion (mt : MultiTrack)
    (fs : String → Option (List Row)) (insts : List String) (i : String)
    (hi : i ∈ insts) (hni : i ∉ mt.instruments) :
    get_trackids mt insts = Except.error PyErr.assertionError ∧
    get_score_mix_instruments mt fs insts = Except.error PyErr.assertionError := by
  have hall : ¬ insts.all (fun j => decide (j ∈ mt.instruments)) = true := by
    intro hTrue
    exact hni (of_decide_eq_true (List.all_eq_true.mp hTrue i hi))
  constructor
  · simp only [get_trackids, if_neg hall]
  · simp only [get_score_mix_instruments, if_neg hall]

/-- Witness for C3: requesting `tuba` on the violin-only fixture piece
makes both operations fail with the assertion error. -/
theorem missing_instrument_assertion_witness :
    ("tuba" ∈ ["tuba"] ∧ "tuba" ∉ mtFix.instruments) ∧
    get_trackids mtFix ["tuba"] = Except.error PyErr.assertionError ∧
    get_score_mix_instruments mtFix (fun _ => none) ["tuba"] =
      Except.error PyErr.assertionError :=
  ⟨⟨by decide, by decide⟩,
    missing_instrument_assertion mtFix (fun _ => none) ["tuba"] "tuba"
      (by decide) (by decide)⟩

/-! ### Claim C8 -/

/-- Is this outcome the invalid-id `ValueError` of `MultiTrack.__init__`
(source lines 212-213)? -/
def isInvalidIdError : Except PyErr MultiTrack → Bool
  | Except.error (PyErr.valueError _) => true
  | _ => false

/-- C8: constructing a `MultiTrack` for a piece id absent from the index
fails immediately with the invalid-id `ValueError`; for a piece id
present in the index that error is never raised (construction may still
fail, but not with a `ValueError`). -/
theorem invalid_id_valueError (index : MTIndex) (dataHome mid : String) :
    (List.lookup mid index = none →
      constructMultiTrack index dataHome mid =
        Except.error (PyErr.valueError
          (mid ++ " is not a valid track ID in Example"))) ∧
    (List.lookup mid index ≠ none →
      isInvalidIdError (constructMultiTrack index dataHome mid) = false) := by
  constructor
  · intro h
    simp [constructMultiTrack, h]
  · intro h
    cases hl : List.lookup mid index with
    | none => exact absurd hl h
    | some e =>
      simp only [constructMultiTrack, hl]
      rcases buildTracks_cases mid dataHome (sortLe pyStrLe e.tracks) with hb | hb <;>
        simp [hb, isInvalidIdError]

/-- Witness for C8: on the concrete index, the absent id `beethoven`
yields exactly the invalid-id error and the present id `mozart` does
not. -/
theorem invalid_id_valueError_witness :
    List.lookup "beethoven" idx0 = none ∧
    constructMultiTrack idx0 "d" "beethoven" =
      Except.error (PyErr.valueError
        "beethoven is not a valid track ID in Example") ∧
    List.lookup "mozart" idx0 ≠ none ∧
    isInvalidIdError (constructMultiTrack idx0 "d" "mozart") = false :=
  ⟨by decide,
    by
      have h := (invalid_id_valueError idx0 "d" "beethoven").1 (by decide)
      simpa using h,
    by decide,
    (invalid_id_valueError idx0 "d" "mozart").2 (by decide)⟩

/-! ### Claim C5 -/

/-- C5: the claim says construction builds one `Track` per sub-track id.
It does not: line 220 calls `Track(self.mtrack_id, k, self._data_home)`
— three positional arguments for the five required parameters of
`Track.__init__` (lines 123-130) — so for any piece with at least one
sub-track the comprehension raises `TypeError` at the first key and no
`Track` is ever built (the id passed is also the piece id, not the
sub-track id `k`).  Evaluated here on the concrete index. -/
theorem construct_multitrack_typeError_eval :
    constructMultiTrack idx0 "d" "mozart" = Except.error PyErr.typeError := rfl

/-! ### Claim C4 -/

/-- C4: the claim says `Track.audio` returns the sample-for-sample sum of
the voices with the first voice's sample rate.  The summation loop
(lines 165-168) does have that shape, but every iteration calls
`load_audio`, whose body uses the undefined name `audio_path` (its
parameter is `fhandle`), so `audio` raises `NameError` even when every
voice file exists with identical length and sample rate — it never
returns the sum.  Evaluated here on a two-voice track whose files both
decode to three samples at rate 44100. -/
theorem track_audio_nameError_eval :
    trackAudio ⟨["mozart-violin1.wav", "mozart-violin2.wav"]⟩
      (fun p => if p = "mozart-violin1.wav" then some ([1, 2, 3], 44100)
        else if p = "mozart-violin2.wav" then some ([4, 5, 6], 44100)
        else none) =
    Except.error (PyErr.nameError "audio_path") := rfl

/-! ### Claim C9 -/

/-- C9: the claim says both lazy accessors fail with `IOError` on a
missing file.  The score path does: `get_score_mix_instruments` raises
`IOError` naming the resolved path when a matched score file is absent
(lines 339-340).  But `load_audio` (lines 389-403) never reaches its
existence check: its body refers to the undefined name `audio_path`, so
a missing audio file surfaces as `NameError`, not `IOError`.  Both
behaviours evaluated here on an empty filesystem. -/
theorem missing_file_access_eval :
    get_score_mix_instruments mtFix (fun _ => none) ["violin"] =
      Except.error (PyErr.ioError "d/annotations/violin.txt") ∧
    load_audio "d/mozart/violin.wav" (fun _ => none) =
      Except.error (PyErr.nameError "audio_path") :=
  ⟨rfl, rfl⟩

/-! ### Claim C2 -/

theorem rowLe_trans (a b c : Row) (h1 : decide (a.1 ≤ b.1) = true)
    (h2 : decide (b.1 ≤ c.1) = true) : decide (a.1 ≤ c.1) = true :=
  decide_eq_true (le_trans (of_decide_eq_true h1) (of_decide_eq_true h2))

theorem rowLe_total (a b : Row) :
    decide (a.1 ≤ b.1) = true ∨ decide (b.1 ≤ a.1) = true := by
  rcases le_total a.1 b.1 with h | h
  · exact Or.inl (decide_eq_true h)
  · exact Or.inr (decide_eq_true h)

/-- C2 (amended): when every requested instrument is in the piece's
instrument set, at least one score file matches, and every matched score
file exists on disk with at least two rows, `get_score_mix_instruments`
returns a permutation of the concatenation of all matched files' rows,
sorted ascending by start time, whose event count is the sum of the
per-file row counts.  (The two-row floor is forced by `np.loadtxt`'s
dimension squeezing — see the C2 counterexample.) -/
theorem score_mix_sorted_concat (mt : MultiTrack)
    (fs : String → Option (List Row)) (insts : List String)
    (contents : String → List Row)
    (hsub : ∀ i ∈ insts, i ∈ mt.instruments)
    (hfiles : ∀ p ∈ scorePathsFor mt.entry insts,
      fs (joinPath mt.dataHome p) = some (contents p) ∧
        2 ≤ (contents p).length)
    (hne : scorePathsFor mt.entry insts ≠ []) :
    ∃ evs, get_score_mix_instruments mt fs insts = Except.ok evs ∧
      evs.Perm (((scorePathsFor mt.entry insts).map
        (fun p => (contents p).map parseRow)).flatten) ∧
      List.Pairwise (fun a b : Row => a.1 ≤ b.1) evs ∧
      evs.length = ((scorePathsFor mt.entry insts).map
        (fun p => (contents p).length)).sum := by
  have hall : insts.all (fun i => decide (i ∈ mt.instruments)) = true :=
    List.all_eq_true.mpr fun i hi => decide_eq_true (hsub i hi)
  have hread := readAllScores_ok fs mt.dataHome contents
    (scorePathsFor mt.entry insts) hfiles
  refine ⟨sortLe (fun a b : Row => decide (a.1 ≤ b.1))
    ((scorePathsFor mt.entry insts).map
      (fun p => (contents p).map parseRow)).flatten, ?_, ?_, ?_, ?_⟩
  · simp only [get_score_mix_instruments, hall, if_true, hread]
    cases hL : (scorePathsFor mt.entry insts).map
        (fun p => (contents p).map parseRow) with
    | nil => exact absurd (List.map_eq_nil_iff.mp hL) hne
    | cons r rs => rfl
  · exact sortLe_perm _ _
  · exact (sortLe_pairwise (fun a b : Row => decide (a.1 ≤ b.1))
      rowLe_trans rowLe_total _).imp (fun h => of_decide_eq_true h)
  · rw [(sortLe_perm _ _).length_eq]
    rw [List.length_flatten, List.map_map]
    congr 1
    apply List.map_congr_left
    intro p hp
    simp [Function.comp, List.length_map]

/-- Fixture for the C2 witness: a piece with oboe and violin score files,
two rows each, deliberately unsorted within the oboe file. -/
def mtTwo : MultiTrack :=
  ⟨"mozart", "d",
    ⟨["mozart-oboe", "mozart-violin"],
      [("score-oboe", "annotations/oboe.txt"),
       ("score-violin", "annotations/violin.txt")]⟩,
    ["mozart-oboe", "mozart-violin"], ["oboe", "violin"],
    ["strings", "woodwinds"]⟩

/-- The rows of the two score files of `mtTwo`. -/
def contentsTwo : String → List Row := fun p =>
  if p = "annotations/oboe.txt" then [(3, 4, "E4"), (0, 2, "C4")]
  else if p = "annotations/violin.txt" then [(1, 2, "G4"), (2, 3, "A4")]
  else []

/-- The on-disk filesystem for the C2 witness. -/
def fsTwo : String → Option (List Row) := fun full =>
  if full = "d/annotations/oboe.txt" then some (contentsTwo "annotations/oboe.txt")
  else if full = "d/annotations/violin.txt" then
    some (contentsTwo "annotations/violin.txt")
  else none

/-- Witness for C2: both instruments requested on `mtTwo`; every
hypothesis of the amended claim holds concretely. -/
theorem score_mix_sorted_concat_witness :
    ((∀ i ∈ ["oboe", "violin"], i ∈ mtTwo.instruments) ∧
     (∀ p ∈ scorePathsFor mtTwo.entry ["oboe", "violin"],
       fsTwo (joinPath mtTwo.dataHome p) = some (contentsTwo p) ∧
         2 ≤ (contentsTwo p).length) ∧
     scorePathsFor mtTwo.entry ["oboe", "violin"] ≠ []) ∧
    (∃ evs, get_score_mix_instruments mtTwo fsTwo ["oboe", "violin"] =
        Except.ok evs ∧
      evs.Perm (((scorePathsFor mtTwo.entry ["oboe", "violin"]).map
        (fun p => (contentsTwo p).map parseRow)).flatten) ∧
      List.Pairwise (fun a b : Row => a.1 ≤ b.1) evs ∧
      evs.length = ((scorePathsFor mtTwo.entry ["oboe", "violin"]).map
        (fun p => (contentsTwo p).length)).sum) :=
  ⟨⟨by decide, by decide, by decide⟩,
    score_mix_sorted_concat mtTwo fsTwo ["oboe", "violin"] contentsTwo
      (by decide) (by decide) (by decide)⟩

/-- The filesystem for the C2 counterexample: the matched violin score
file exists but holds exactly one row. -/
def fsOneRow : String → Option (List Row) := fun full =>
  if full = "d/annotations/violin.txt" then some [(0, 1, "C4")] else none

/-- Counterexample for C2 as stated: on a piece whose single matched
score file exists on disk but contains one row, the merged score is not
returned at all — `np.loadtxt` yields a one-dimensional array for the
one-row file and the column slice `times[:, 0]` raises `IndexError`. -/
theorem score_mix_single_row_error :
    "violin" ∈ mtFix.instruments ∧
    fsOneRow "d/annotations/violin.txt" = some [(0, 1, "C4")] ∧
    get_score_mix_instruments mtFix fsOneRow ["violin"] =
      Except.error PyErr.indexError :=
  ⟨by decide, by decide, rfl⟩

/-! ### Claim C6 -/

/-- C6: for a matched score file holding exactly the rows
`(0.0, 1.0, "C4")` and `(1.0, 2.0, "D4")` for an instrument of the
piece, `get_score_mix_instruments` returns exactly those two Events in
that order: the write-then-load round trip is the identity on the event
sequence. -/
theorem score_round_trip (mt : MultiTrack) (fs : String → Option (List Row))
    (x path : String) (hx : x ∈ mt.instruments)
    (hpaths : scorePathsFor mt.entry [x] = [path])
    (hfile : fs (joinPath mt.dataHome path) =
      some [(0, 1, "C4"), (1, 2, "D4")]) :
    get_score_mix_instruments mt fs [x] =
      Except.ok [(0, 1, "C4"), (1, 2, "D4")] := by
  have hall : [x].all (fun i => decide (i ∈ mt.instruments)) = true := by
    simp [hx]
  have hread : readAllScores fs mt.dataHome [path] =
      Except.ok [[(0, 1, "C4"), (1, 2, "D4")]] := by
    simp only [readAllScores, readScoreFile, hfile]
    rfl
  simp only [get_score_mix_instruments, hall, if_true, hpaths, hread]
  rfl

/-- The on-disk filesystem for the C6 witness: exactly the two round-trip
rows under the fixture piece's resolved score path. -/
def fsRoundTrip : String → Option (List Row) := fun full =>
  if full = "d/annotations/violin.txt" then
    some [(0, 1, "C4"), (1, 2, "D4")]
  else none

/-- Witness for C6 on the concrete fixture piece. -/
theorem score_round_trip_witness :
    ("violin" ∈ mtFix.instruments ∧
     scorePathsFor mtFix.entry ["violin"] = ["annotations/violin.txt"] ∧
     fsRoundTrip (joinPath mtFix.dataHome "annotations/violin.txt") =
       some [(0, 1, "C4"), (1, 2, "D4")]) ∧
    get_score_mix_instruments mtFix fsRoundTrip ["violin"] =
      Except.ok [(0, 1, "C4"), (1, 2, "D4")] :=
  ⟨⟨by decide, by decide, by decide⟩,
    score_round_trip mtFix fsRoundTrip "violin" "annotations/violin.txt"
      (by decide) (by decide) (by decide)⟩

/-! ### Claim C1 -/

/-- The sub-track ids matched when every instrument of the piece is
requested: the value `get_trackids(self.instruments)` computes. -/
def fullTrackids (mt : MultiTrack) : List String :=
  mt.mtrack_ids.filter (fun tid => regexAltSearch mt.instruments tid)

/-- Fixture piece with two sub-tracks, used by the C1 counterexample and
witness. -/
def mtMix : MultiTrack :=
  ⟨"mozart", "d",
    ⟨["mozart-oboe", "mozart-violin"],
      [("score-oboe", "annotations/oboe.txt"),
       ("score-violin", "annotations/violin.txt")]⟩,
    ["mozart-oboe", "mozart-violin"], ["oboe", "violin"],
    ["strings", "woodwinds"]⟩

/-- Decoded audio for the C1 counterexample: both stems' files exist, but
one decodes to one sample and the other to two. -/
def audioUneven : String → Option (List ℚ) := fun tid =>
  if tid = "mozart-oboe" then some [2]
  else if tid = "mozart-violin" then some [4, 6]
  else none

/-- Counterexample for C1 as stated: `audio_mix` is computed with
`enforce_length=False` (source line 251), not `enforce_length=True` as
the claim says.  On a piece whose files all exist but decode to buffers
of different lengths, the length-enforced call of the claim fails with
the length-mismatch error while `audio_mix` succeeds, so the two
disagree. -/
theorem audio_mix_not_length_enforced :
    audio_mix mtMix audioUneven ≠
      get_audio_mix_instruments mtMix audioUneven mtMix.instruments
        none true true := by
  have hR : get_audio_mix_instruments mtMix audioUneven mtMix.instruments
      none true true = Except.error PyErr.lengthMismatch := rfl
  have hL : ∃ v, audio_mix mtMix audioUneven = Except.ok v := ⟨_, rfl⟩
  rcases hL with ⟨v, hv⟩
  rw [hv, hR]
  simp

/-- C1 (amended): `audio_mix` equals `get_audio_mix_instruments` called
on the piece's full instrument list with `weights=None`, `average=True`
and `enforce_length=False`; and under the additional precondition that
all matched tracks decode to buffers of one common length it also equals
the `enforce_length=True` call named by the claim. -/
theorem audio_mix_eq_get_audio_mix_instruments (mt : MultiTrack)
    (audioOf : String → Option (List ℚ)) (bufOf : String → List ℚ)
    (hdec : ∀ tid ∈ fullTrackids mt, audioOf tid = some (bufOf tid))
    (hlen : ∃ c, ∀ tid ∈ fullTrackids mt, (bufOf tid).length = c) :
    audio_mix mt audioOf =
      get_audio_mix_instruments mt audioOf mt.instruments none true false ∧
    audio_mix mt audioOf =
      get_audio_mix_instruments mt audioOf mt.instruments none true true := by
  refine ⟨rfl, ?_⟩
  rcases hlen with ⟨c, hc⟩
  have htids : get_trackids mt mt.instruments =
      Except.ok (fullTrackids mt) :=
    get_trackids_all mt mt.instruments (fun i hi => hi)
  have hbufs : decodeAll audioOf (fullTrackids mt) =
      Except.ok ((fullTrackids mt).map bufOf) :=
    decodeAll_ok audioOf bufOf (fullTrackids mt) hdec
  have hall : ((fullTrackids mt).map bufOf).all
      (fun b => decide (b.length = maxLen ((fullTrackids mt).map bufOf)))
      = true := by
    apply List.all_eq_true.mpr
    intro b hb
    have hmax : maxLen ((fullTrackids mt).map bufOf) = c := by
      apply maxLen_of_forall _ c
      · intro hnil
        rw [hnil] at hb
        simp at hb
      · intro b2 hb2
        rcases List.mem_map.mp hb2 with ⟨tid2, htid2, h2⟩
        rw [← h2]
        exact hc tid2 htid2
    rcases List.mem_map.mp hb with ⟨tid, htid, hbt⟩
    rw [hmax, ← hbt, hc tid htid]
    exact decide_eq_true rfl
  simp only [audio_mix, get_audio_mix_instruments, htids, get_target,
    hbufs, hall]
  simp

/-- Decoded audio for the C1 witness: both stems decode to two samples. -/
def audioEven : String → Option (List ℚ) := fun tid =>
  if tid = "mozart-oboe" then some [2, 4]
  else if tid = "mozart-violin" then some [4, 6]
  else none

/-- The buffers behind `audioEven`. -/
def bufEven : String → List ℚ := fun tid =>
  if tid = "mozart-oboe" then [2, 4]
  else if tid = "mozart-violin" then [4, 6]
  else []

/-- Witness for C1 (amended) on the two-stem fixture with equal-length
buffers. -/
theorem audio_mix_eq_get_audio_mix_instruments_witness :
    ((∀ tid ∈ fullTrackids mtMix, audioEven tid = some (bufEven tid)) ∧
     (∀ tid ∈ fullTrackids mtMix, (bufEven tid).length = 2)) ∧
    (audio_mix mtMix audioEven =
       get_audio_mix_instruments mtMix audioEven mtMix.instruments
         none true false ∧
     audio_mix mtMix audioEven =
       get_audio_mix_instruments mtMix audioEven mtMix.instruments
         none true true) :=
  ⟨⟨by decide, by decide⟩,
    audio_mix_eq_get_audio_mix_instruments mtMix audioEven bufEven
      (by decide) ⟨2, by decide⟩⟩

/-! ### Claim C7 -/

/-- C7: under the well-formedness of the index the spec describes (§6:
the per-instrument keys are `score-<instrument>`, so every key containing
`score-` starts with it and its remainder does not contain `score-`
again; and the keys of one piece's entry are distinct, being keys of one
Python dict), the derived `instruments` list is alphabetically sorted
and duplicate-free, the derived `sections` list is alphabetically sorted
and duplicate-free, and every section is the section-map image of at
least one instrument of the piece. -/
theorem instruments_sections_sorted_nodup (e : MTIndexEntry)
    (hnodup : (e.sources.map Prod.fst).Nodup)
    (hkeys : ∀ kv ∈ e.sources, hasSub "score-" kv.1 = true →
      startsWithChars scoreChars kv.1.data = true ∧
      containsChars scoreChars (kv.1.data.drop 6) = false) :
    List.Pairwise (fun a b => pyStrLe a b = true) (instrumentsOf e) ∧
    (instrumentsOf e).Nodup ∧
    List.Pairwise (fun a b => pyStrLe a b = true)
      (sectionsOf (instrumentsOf e)) ∧
    (sectionsOf (instrumentsOf e)).Nodup ∧
    ∀ s ∈ sectionsOf (instrumentsOf e),
      ∃ i ∈ instrumentsOf e, (i, s) ∈ DATASET_SECTIONS := by
  have hkey_eq : ∀ k ∈ (e.sources.map Prod.fst).filter
      (fun k => hasSub "score-" k),
      k.data = scoreChars ++ k.data.drop 6 ∧
      containsChars scoreChars (k.data.drop 6) = false := by
    intro k hk
    rcases List.mem_filter.mp hk with ⟨hkmem, hksub⟩
    rcases List.mem_map.mp hkmem with ⟨kv, hkv, hfst⟩
    rcases hkeys kv hkv (by rw [hfst]; exact hksub) with ⟨hstart, hnomore⟩
    rw [hfst] at hstart hnomore
    exact ⟨startsWithChars_eq_append scoreChars k.data hstart, hnomore⟩
  refine ⟨?_, ?_, ?_, ?_, ?_⟩
  · exact sortLe_pairwise pyStrLe pyStrLe_trans pyStrLe_total _
  · apply (sortLe_perm pyStrLe _).nodup_iff.mpr
    apply List.Nodup.map_on
    · intro k1 h1 k2 h2 heq
      rcases hkey_eq k1 h1 with ⟨he1, hn1⟩
      rcases hkey_eq k2 h2 with ⟨he2, hn2⟩
      have hr1 : removeScore k1.data = k1.data.drop 6 := by
        conv_lhs => rw [he1]
        exact removeScore_append _ hn1
      have hr2 : removeScore k2.data = k2.data.drop 6 := by
        conv_lhs => rw [he2]
        exact removeScore_append _ hn2
      rw [hr1, hr2] at heq
      injection heq with hdrop
      have hdata : k1.data = k2.data := by rw [he1, hdrop, ← he2]
      calc k1 = String.mk k1.data := rfl
        _ = String.mk k2.data := by rw [hdata]
        _ = k2 := rfl
    · exact hnodup.filter _
  · exact sortLe_pairwise pyStrLe pyStrLe_trans pyStrLe_total _
  · exact (sortLe_perm pyStrLe _).nodup_iff.mpr (List.nodup_dedup _)
  · intro s hs
    have hs2 := (sortLe_perm pyStrLe _).mem_iff.mp hs
    have hs3 := List.mem_dedup.mp hs2
    rcases List.mem_map.mp hs3 with ⟨p, hpmem, hsnd⟩
    rcases List.mem_filter.mp hpmem with ⟨hpDS, hpin⟩
    refine ⟨p.1, of_decide_eq_true hpin, ?_⟩
    rw [← hsnd]
    exact hpDS

/-- A well-formed two-score-key entry for the C7 witness, its source keys
deliberately out of alphabetical order. -/
def entrySeven : MTIndexEntry :=
  ⟨["mozart-violin", "mozart-oboe"],
    [("score-violin", "annotations/violin.txt"),
     ("score-oboe", "annotations/oboe.txt")]⟩

/-- Witness for C7 on the concrete entry. -/
theorem instruments_sections_sorted_nodup_witness :
    ((entrySeven.sources.map Prod.fst).Nodup ∧
     (∀ kv ∈ entrySeven.sources, hasSub "score-" kv.1 = true →
       startsWithChars scoreChars kv.1.data = true ∧
       containsChars scoreChars (kv.1.data.drop 6) = false)) ∧
    (List.Pairwise (fun a b => pyStrLe a b = true)
       (instrumentsOf entrySeven) ∧
     (instrumentsOf entrySeven).Nodup ∧
     List.Pairwise (fun a b => pyStrLe a b = true)
       (sectionsOf (instrumentsOf entrySeven)) ∧
     (sectionsOf (instrumentsOf entrySeven)).Nodup ∧
     ∀ s ∈ sectionsOf (instrumentsOf entrySeven),
       ∃ i ∈ instrumentsOf entrySeven, (i, s) ∈ DATASET_SECTIONS) :=
  ⟨⟨by decide, by decide⟩,
    instruments_sections_sorted_nodup entrySeven (by decide) (by decide)⟩
